import Mathlib

/-!
Shallow embedding of the `sensor_pack` micropython package
(`bitfield.py`, `bus_service.py`, `base_sensor.py`) and proofs about it.

Python unbounded non-negative integers are modelled as `Nat`; `bytes` /
`bytearray` values as `List Nat` (one entry per byte); Python exceptions as
the `PyErr` error type through `Except`.  Stateful bus / pin traffic of the
SPI adapter is modelled as an explicit event trace (`SpiEv`), with the
behaviour of the external transport primitive passed in as an
`Except PyErr _` parameter so that both the normal return and the raising
exit path of a `try/finally` block are covered.
-/

/-- Python exceptions raised (or propagated) by this layer. -/
inductive PyErr where
  /-- Python `ValueError` with its message. -/
  | valueError (msg : String)
  /-- Python `NotImplementedError` (the spec's `UnsupportedOperation` /
  `NotImplemented` faults). -/
  | notImplementedError
  /-- Python `OverflowError` from `int.to_bytes` when the value does not fit. -/
  | overflowError
  /-- Python `IndexError` from indexing an empty string. -/
  | indexError
  /-- the spec's `LengthMismatch` fault of the full-duplex transport
  primitive. -/
  | lengthMismatch
  deriving DecidableEq, Repr

/-! ## bitfield.py -/

/-- The `class BitField` of `bitfield.py`: `alias`, `start`, `stop` as given to
the constructor and the computed `bitmask` (`alias` is a Lean keyword, hence
the primed field name). -/
structure BitField where
  alias' : String
  start : Nat
  stop : Nat
  bitmask : Nat
  deriving DecidableEq, Repr

namespace BitField

/-- Source `BitField._bitmask(start, stop)`:
`res = 0; for i in range(start, 1 + stop): res |= 1 << i; return res`.
`range(start, 1 + stop)` is the list `[start, …, stop]`, i.e.
`List.range' start (1 + stop - start)`. -/
def bitmask_of (start stop : Nat) : Nat :=
  (List.range' start (1 + stop - start)).foldl (fun res i => res ||| (1 <<< i)) 0

/-- Source `BitField.__init__(alias, start, stop)`: raises `ValueError`
(the spec's `InvalidRange`) when `start > stop`, otherwise stores the three
arguments and the computed mask. -/
def init (alias' : String) (start stop : Nat) : Except PyErr BitField :=
  if start > stop then
    .error (.valueError "Invalid start, stop value")
  else
    .ok ⟨alias', start, stop, bitmask_of start stop⟩

/-- Source `BitField.put(self, source, value)`:
`src = source & ~self.bitmask; src |= (value << self.start) & self.bitmask`.
For non-negative Python ints, `source & ~mask` is `Nat.ldiff source mask`. -/
def put (self : BitField) (source value : Nat) : Nat :=
  let src := Nat.ldiff source self.bitmask
  let src := src ||| ((value <<< self.start) &&& self.bitmask)
  src

/-- Source `BitField.get(self, source)`:
`return (source & self.bitmask) >> self.start`. -/
def get (self : BitField) (source : Nat) : Nat :=
  (source &&& self.bitmask) >>> self.start

end BitField

/-! ### Bitmask lemmas -/

/-- Bit `i` of `2 ^ b - 2 ^ a` is set exactly when `a ≤ i < b`. -/
lemma testBit_two_pow_sub_two_pow (a b i : Nat) :
    (2 ^ b - 2 ^ a).testBit i = true ↔ a ≤ i ∧ i < b := by
  by_cases hab : a ≤ b
  · have h : (2 : Nat) ^ b - 2 ^ a = (2 ^ (b - a) - 1) <<< a := by
      rw [Nat.shiftLeft_eq, Nat.sub_one_mul, ← pow_add,
        Nat.sub_add_cancel hab]
    rw [h, Nat.testBit_shiftLeft, Nat.testBit_two_pow_sub_one]
    simp only [Bool.and_eq_true, decide_eq_true_eq, ge_iff_le]
    omega
  · have hz : (2 : Nat) ^ b - 2 ^ a = 0 :=
      Nat.sub_eq_zero_of_le (Nat.pow_le_pow_right (by norm_num) (by omega))
    rw [hz]
    simp only [Nat.zero_testBit, Bool.false_eq_true, false_iff]
    omega

/-- The or-accumulating loop of `_bitmask` over `range(s, s + n)` adds the
contiguous block of bits `s, …, s + n - 1` to the accumulator. -/
lemma bitmask_foldl (n : Nat) : ∀ (s acc : Nat),
    (List.range' s n).foldl (fun res i => res ||| (1 <<< i)) acc
      = acc ||| (2 ^ (s + n) - 2 ^ s) := by
  induction n with
  | zero =>
    intro s acc
    simp
  | succ n ih =>
    intro s acc
    rw [List.range'_succ, List.foldl_cons, ih (s + 1) (acc ||| 1 <<< s),
      Nat.lor_assoc]
    congr 1
    apply Nat.eq_of_testBit_eq
    intro i
    have h1 : (1 : Nat) <<< s = 2 ^ s := by
      rw [Nat.shiftLeft_eq, one_mul]
    rw [Bool.eq_iff_iff, h1, Nat.testBit_lor]
    simp only [Bool.or_eq_true, testBit_two_pow_sub_two_pow,
      Nat.testBit_two_pow, decide_eq_true_eq]
    omega

/-- The value `_bitmask start stop` is `2 ^ (stop + 1) - 2 ^ start` (also when
`start > stop`, where both sides are `0`). -/
lemma bitmask_of_eq (start stop : Nat) :
    BitField.bitmask_of start stop = 2 ^ (stop + 1) - 2 ^ start := by
  unfold BitField.bitmask_of
  rw [bitmask_foldl]
  rcases le_or_lt start (stop + 1) with h | h
  · rw [Nat.zero_or, show start + (1 + stop - start) = stop + 1 by omega]
  · have h2 : 1 + stop - start = 0 := by omega
    have h3 : (2 : Nat) ^ (stop + 1) ≤ 2 ^ start :=
      Nat.pow_le_pow_right (by norm_num) (by omega)
    rw [h2, Nat.add_zero, Nat.sub_eq_zero_of_le (le_refl _),
      Nat.sub_eq_zero_of_le h3, Nat.or_zero]

/-- Bit `i` of the mask is set exactly when `start ≤ i ≤ stop`. -/
lemma testBit_bitmask_of (start stop i : Nat) :
    (BitField.bitmask_of start stop).testBit i = true ↔ start ≤ i ∧ i ≤ stop := by
  rw [bitmask_of_eq, testBit_two_pow_sub_two_pow]
  omega

/-! ### BitField theorems -/

/-- C6: `BitField` construction raises `InvalidRange` (`ValueError`) iff
`start > stop`; for `start ≤ stop` it succeeds and stores `alias`, `start`,
`stop` unchanged. -/
theorem bitfield_init_invalid_range (a : String) (start stop : Nat) :
    ((∃ e, BitField.init a start stop = .error e) ↔ start > stop)
    ∧ (start ≤ stop →
        ∃ bf, BitField.init a start stop = .ok bf
          ∧ bf.alias' = a ∧ bf.start = start ∧ bf.stop = stop) := by
  constructor
  · constructor
    · rintro ⟨e, he⟩
      by_contra hns
      unfold BitField.init at he
      rw [if_neg hns] at he
      exact absurd he (by simp)
    · intro h
      exact ⟨_, by unfold BitField.init; rw [if_pos h]⟩
  · intro h
    refine ⟨⟨a, start, stop, BitField.bitmask_of start stop⟩, ?_, rfl, rfl, rfl⟩
    unfold BitField.init
    rw [if_neg (by omega)]

/-- Witness for `bitfield_init_invalid_range` at `start = 2`, `stop = 4`
(success side) and `start = 5`, `stop = 2` (failure side). -/
theorem bitfield_init_invalid_range_witness :
    ((∃ e, BitField.init "f" 5 2 = .error e) ↔ 5 > 2)
    ∧ (∃ bf, BitField.init "mode" 2 4 = .ok bf
        ∧ bf.alias' = "mode" ∧ bf.start = 2 ∧ bf.stop = 4) :=
  ⟨(bitfield_init_invalid_range "f" 5 2).1,
   (bitfield_init_invalid_range "mode" 2 4).2 (by decide)⟩

/-- C7: the mask operation (the validated `_bitmask` computation of the
`BitField` constructor) fails with `InvalidRange` when `start > stop`; when
`start ≤ stop`, `_bitmask start stop = 2 ^ (stop + 1) - 2 ^ start`, this
value is stored in the constructed `BitField`, and it has exactly the bits
`start … stop` set. -/
theorem bitfield_mask_value (a : String) (start stop : Nat) :
    (start > stop → ∃ e, BitField.init a start stop = .error e)
    ∧ (start ≤ stop →
        BitField.bitmask_of start stop = 2 ^ (stop + 1) - 2 ^ start
        ∧ ∃ bf, BitField.init a start stop = .ok bf
            ∧ bf.bitmask = 2 ^ (stop + 1) - 2 ^ start
            ∧ ∀ i, (bf.bitmask.testBit i = true ↔ start ≤ i ∧ i ≤ stop)) := by
  constructor
  · intro h
    unfold BitField.init
    simp [h]
  · intro h
    refine ⟨bitmask_of_eq start stop, ⟨a, start, stop, BitField.bitmask_of start stop⟩, ?_, ?_, ?_⟩
    · unfold BitField.init
      simp
      omega
    · exact bitmask_of_eq start stop
    · intro i
      exact testBit_bitmask_of start stop i

/-- Witness for `bitfield_mask_value` at `(5, 2)` (failure side) and
`(2, 4)` (mask value `0b11100 = 28`). -/
theorem bitfield_mask_value_witness :
    (∃ e, BitField.init "f" 5 2 = .error e)
    ∧ (BitField.bitmask_of 2 4 = 2 ^ (4 + 1) - 2 ^ 2
        ∧ ∃ bf, BitField.init "g" 2 4 = .ok bf
            ∧ bf.bitmask = 2 ^ (4 + 1) - 2 ^ 2
            ∧ ∀ i, (bf.bitmask.testBit i = true ↔ 2 ≤ i ∧ i ≤ 4)) :=
  ⟨(bitfield_mask_value "f" 5 2).1 (by decide),
   (bitfield_mask_value "g" 2 4).2 (by decide)⟩

/-- C3: `put` leaves every bit of `source` outside the mask unchanged:
`put(source, value) & ~bitmask == source & ~bitmask` (for non-negative
Python ints, `x & ~m` is `Nat.ldiff x m`); this holds for any `BitField`
record, in particular for every constructed one. -/
theorem bitfield_put_frame (bf : BitField) (source value : Nat) :
    Nat.ldiff (bf.put source value) bf.bitmask
      = Nat.ldiff source bf.bitmask := by
  apply Nat.eq_of_testBit_eq
  intro i
  simp only [BitField.put, Nat.testBit_ldiff, Nat.testBit_lor,
    Nat.testBit_land]
  cases hm : (bf.bitmask).testBit i <;> simp

/-- C2: for a `BitField` constructed with `start ≤ stop`,
`get (put source value) = value & (2 ^ (stop - start + 1) - 1)`:
bits of `value` above the field width are silently discarded. -/
theorem bitfield_get_put (a : String) (start stop source value : Nat)
    (h : start ≤ stop) (bf : BitField)
    (hbf : BitField.init a start stop = .ok bf) :
    bf.get (bf.put source value) = value &&& (2 ^ (stop - start + 1) - 1) := by
  unfold BitField.init at hbf
  rw [if_neg (by omega)] at hbf
  cases hbf
  apply Nat.eq_of_testBit_eq
  intro i
  rw [Bool.eq_iff_iff]
  simp only [BitField.get, BitField.put, Nat.testBit_shiftRight,
    Nat.testBit_land, Nat.testBit_lor, Nat.testBit_ldiff,
    Nat.testBit_shiftLeft, Nat.testBit_two_pow_sub_one, Bool.and_eq_true,
    Bool.or_eq_true, decide_eq_true_eq, ge_iff_le, Bool.not_eq_eq_eq_not,
    Bool.not_true, Nat.add_sub_cancel_left]
  by_cases hi : i ≤ stop - start
  · have h1 : start ≤ start + i := by omega
    have h2 : start + i ≤ stop := by omega
    have h3 : i < stop - start + 1 := by omega
    have hm : (BitField.bitmask_of start stop).testBit (start + i) = true :=
      (testBit_bitmask_of start stop (start + i)).2 ⟨h1, h2⟩
    simp [hm, h1, h3, Nat.add_sub_cancel_left]
  · have h2 : ¬ (start + i ≤ stop) := by omega
    have hm : (BitField.bitmask_of start stop).testBit (start + i) = false := by
      rw [← Bool.not_eq_true, testBit_bitmask_of]
      omega
    have h3 : ¬ (i < stop - start + 1) := by omega
    simp [hm, h3]

/-- Witness for `bitfield_get_put`: the spec scenario field `(2, 4)` with
`source = 0`, `value = 0b101`. -/
theorem bitfield_get_put_witness :
    ∃ bf, BitField.init "mode" 2 4 = .ok bf
      ∧ bf.get (bf.put 0 5) = 5 &&& (2 ^ (4 - 2 + 1) - 1) := by
  refine ⟨⟨"mode", 2, 4, BitField.bitmask_of 2 4⟩, by rfl, ?_⟩
  exact bitfield_get_put "mode" 2 4 0 5 (by decide) _ (by rfl)

/-! ## bus_service.py — I2cAdapter -/

/-- Value argument of `write_register`: annotated `[int, bytes, bytearray]`
but, being Python, any other object may also be passed (`otherV`). -/
inductive PyValue where
  /-- an `int` (non-negative, modelled as `Nat`). -/
  | intV (n : Nat)
  /-- a `bytes` / `bytearray` object. -/
  | bytesV (b : List Nat)
  /-- any value that is neither an `int` nor `bytes`/`bytearray`. -/
  | otherV
  deriving DecidableEq, Repr

/-- Big-endian fixed-width byte string of `n`, as produced by
`int.to_bytes(count, "big")`: most significant byte first. -/
def toBytesBig : Nat → Nat → List Nat
  | 0, _ => []
  | c + 1, n => toBytesBig c (n / 256) ++ [n % 256]

/-- Little-endian fixed-width byte string of `n`, as produced by
`int.to_bytes(count, "little")`: least significant byte first. -/
def toBytesLittle : Nat → Nat → List Nat
  | 0, _ => []
  | c + 1, n => n % 256 :: toBytesLittle c (n / 256)

/-- Python `int.to_bytes(length, byteorder)` for a non-negative `int`:
raises `OverflowError` when the value does not fit into `length` bytes and
`ValueError` when `byteorder` is neither `"big"` nor `"little"`. -/
def int_to_bytes (n length : Nat) (byteorder : String) : Except PyErr (List Nat) :=
  if byteorder = "big" then
    if 256 ^ length ≤ n then .error .overflowError
    else .ok (toBytesBig length n)
  else if byteorder = "little" then
    if 256 ^ length ≤ n then .error .overflowError
    else .ok (toBytesLittle length n)
  else .error (.valueError "invalid byteorder")

/-- One call of the I2C memory-write primitive
`bus.writeto_mem(device_addr, reg_addr, buf)`; the underlying bus is
modelled as a recorder of the call it receives, `buf = none` standing for
Python `None`. -/
structure MemWrite where
  device_addr : Nat
  reg_addr : Nat
  buf : Option (List Nat)
  deriving DecidableEq, Repr

/-- Source `I2cAdapter.write_register(device_addr, reg_addr, value,
bytes_count, byte_order)`:
`buf = None`, then `if isinstance(value, int): buf = value.to_bytes(...)`,
then `if isinstance(value, (bytes, bytearray)): buf = value`, then
`return self.bus.writeto_mem(device_addr, reg_addr, buf)`.  The two
`isinstance` branches are disjoint, so the sequential rebinding of `buf` is
a `match` on the value's shape; a raising `to_bytes` propagates. -/
def I2cAdapter.write_register (device_addr reg_addr : Nat) (value : PyValue)
    (bytes_count : Nat) (byte_order : String) : Except PyErr MemWrite :=
  match value with
  | .intV n =>
    (int_to_bytes n bytes_count byte_order).map
      fun b => ⟨device_addr, reg_addr, some b⟩
  | .bytesV b => .ok ⟨device_addr, reg_addr, some b⟩
  | .otherV => .ok ⟨device_addr, reg_addr, none⟩

/-- Big-endian value of a byte string (fold from the most significant
byte). -/
def beVal (l : List Nat) : Nat := l.foldl (fun a b => 256 * a + b) 0

/-- Little-endian value of a byte string. -/
def leVal : List Nat → Nat
  | [] => 0
  | b :: l => b + 256 * leVal l

/-! ### Encoding lemmas -/

lemma toBytesBig_length (c : Nat) : ∀ n, (toBytesBig c n).length = c := by
  induction c with
  | zero => intro n; rfl
  | succ c ih =>
    intro n
    simp [toBytesBig, ih]

lemma toBytesLittle_length (c : Nat) : ∀ n, (toBytesLittle c n).length = c := by
  induction c with
  | zero => intro n; rfl
  | succ c ih =>
    intro n
    simp [toBytesLittle, ih]

lemma beVal_append_one (l : List Nat) (b : Nat) :
    beVal (l ++ [b]) = 256 * beVal l + b := by
  simp [beVal, List.foldl_append]

lemma beVal_toBytesBig (c : Nat) : ∀ n, n < 256 ^ c →
    beVal (toBytesBig c n) = n := by
  induction c with
  | zero =>
    intro n hn
    simp [pow_zero] at hn
    simp [toBytesBig, beVal, hn]
  | succ c ih =>
    intro n hn
    have hdiv : n / 256 < 256 ^ c := by
      rw [Nat.div_lt_iff_lt_mul (by norm_num)]
      calc n < 256 ^ (c + 1) := hn
        _ = 256 ^ c * 256 := by ring
    rw [toBytesBig, beVal_append_one, ih (n / 256) hdiv]
    omega

lemma leVal_toBytesLittle (c : Nat) : ∀ n, n < 256 ^ c →
    leVal (toBytesLittle c n) = n := by
  induction c with
  | zero =>
    intro n hn
    simp [pow_zero] at hn
    simp [toBytesLittle, leVal, hn]
  | succ c ih =>
    intro n hn
    have hdiv : n / 256 < 256 ^ c := by
      rw [Nat.div_lt_iff_lt_mul (by norm_num)]
      calc n < 256 ^ (c + 1) := hn
        _ = 256 ^ c * 256 := by ring
    rw [toBytesLittle, leVal, ih (n / 256) hdiv]
    omega

/-! ### I2cAdapter theorems -/

/-- C4: with an integer value, `I2cAdapter.write_register` encodes it into
exactly `bytes_count` bytes in the given byte order ("big": most
significant first, "little": least significant first) and hands that buffer
to the memory-write primitive; with a `bytes`/`bytearray` value it hands
the buffer over verbatim, ignoring `bytes_count` and `byte_order`; in
particular `write_register(0x42, 0x10, 300, 2, "big")` invokes the
primitive with `b'\x01\x2c'`. -/
theorem i2c_write_register_encoding (device_addr reg_addr n bytes_count : Nat)
    (b : List Nat) (byte_order : String) (h : n < 256 ^ bytes_count) :
    (I2cAdapter.write_register device_addr reg_addr (.intV n) bytes_count "big"
        = .ok ⟨device_addr, reg_addr, some (toBytesBig bytes_count n)⟩
      ∧ (toBytesBig bytes_count n).length = bytes_count
      ∧ beVal (toBytesBig bytes_count n) = n)
    ∧ (I2cAdapter.write_register device_addr reg_addr (.intV n) bytes_count "little"
        = .ok ⟨device_addr, reg_addr, some (toBytesLittle bytes_count n)⟩
      ∧ (toBytesLittle bytes_count n).length = bytes_count
      ∧ leVal (toBytesLittle bytes_count n) = n)
    ∧ I2cAdapter.write_register device_addr reg_addr (.bytesV b) bytes_count byte_order
        = .ok ⟨device_addr, reg_addr, some b⟩
    ∧ I2cAdapter.write_register 0x42 0x10 (.intV 300) 2 "big"
        = .ok ⟨0x42, 0x10, some [0x01, 0x2c]⟩ := by
  refine ⟨⟨?_, toBytesBig_length _ _, beVal_toBytesBig _ _ h⟩,
          ⟨?_, toBytesLittle_length _ _, leVal_toBytesLittle _ _ h⟩,
          rfl, by rfl⟩
  · simp [I2cAdapter.write_register, int_to_bytes, Nat.not_le.mpr h, Except.map]
  · simp [I2cAdapter.write_register, int_to_bytes, Nat.not_le.mpr h, Except.map]

/-- Witness for `i2c_write_register_encoding` at the spec scenario
`(0x42, 0x10, 300, 2)`. -/
theorem i2c_write_register_encoding_witness :
    (I2cAdapter.write_register 0x42 0x10 (.intV 300) 2 "big"
        = .ok ⟨0x42, 0x10, some (toBytesBig 2 300)⟩
      ∧ (toBytesBig 2 300).length = 2
      ∧ beVal (toBytesBig 2 300) = 300)
    ∧ (I2cAdapter.write_register 0x42 0x10 (.intV 300) 2 "little"
        = .ok ⟨0x42, 0x10, some (toBytesLittle 2 300)⟩
      ∧ (toBytesLittle 2 300).length = 2
      ∧ leVal (toBytesLittle 2 300) = 300)
    ∧ I2cAdapter.write_register 0x42 0x10 (.bytesV [7, 8]) 2 "middle"
        = .ok ⟨0x42, 0x10, some [7, 8]⟩
    ∧ I2cAdapter.write_register 0x42 0x10 (.intV 300) 2 "big"
        = .ok ⟨0x42, 0x10, some [0x01, 0x2c]⟩ :=
  i2c_write_register_encoding 0x42 0x10 300 2 [7, 8] "middle" (by norm_num)

/-- C9: a value that is neither `int` nor `bytes`/`bytearray` falls through
both `isinstance` branches, so `I2cAdapter.write_register` raises no type
error itself and invokes the memory-write primitive with `buf = None`. -/
theorem i2c_write_register_other_value (device_addr reg_addr bytes_count : Nat)
    (byte_order : String) :
    I2cAdapter.write_register device_addr reg_addr .otherV bytes_count byte_order
      = .ok ⟨device_addr, reg_addr, none⟩ := rfl

/-! ## bus_service.py — SpiAdapter

The chip-select pin `device_addr` and the optional data-mode pin are
observed through an explicit event trace.  The external transport
(`machine.SPI`) primitive of each method is passed in as its
`Except PyErr _` outcome, so the trace covers both the normal return and
the raising exit of the `try/finally` block: micropython `Pin.low()` /
`Pin.high()` never raise, and in every method the transport call is the
last statement of the `try` body, so the events before the transport call
happen unconditionally and the `finally` clause appends its events whatever
the outcome. -/

/-- One observable event of an `SpiAdapter` transaction. -/
inductive SpiEv where
  /-- the chip-select pin `device_addr` driven low (`device_addr.low()`). -/
  | csLow
  /-- the chip-select pin `device_addr` driven high (`device_addr.high()`). -/
  | csHigh
  /-- the data-mode pin set to `b` (`self.data_mode_pin.value(b)`). -/
  | dmPin (b : Bool)
  /-- the transport call `self.bus.read(n_bytes)`. -/
  | busRead (n_bytes : Nat)
  /-- the transport call `self.bus.readinto(buf, 0x00)`. -/
  | busReadInto (buf : List Nat)
  /-- the transport call `self.bus.write(buf)`. -/
  | busWrite (buf : List Nat)
  /-- the transport call `self.bus.write_readinto(wr_buf, rd_buf)`. -/
  | busWriteReadInto (wr_buf rd_buf : List Nat)
  deriving DecidableEq, Repr

/-- Mutable per-adapter fields of `SpiAdapter.__init__`: `data_mode_pin`
(a `Pin` or `None`; only its truthiness matters here, so it is a `Bool`),
`use_data_mode_pin` and `data_packet` (both initialised `False`). -/
structure SpiAdapter where
  data_mode_pin : Bool
  use_data_mode_pin : Bool
  data_packet : Bool
  deriving DecidableEq, Repr

/-- Python `try body finally fin` where `fin` only drives a pin: the result
(or exception) of the body stands, and the events of `fin` always follow
the events of the body. -/
def tryFinallyTr {α : Type} (body : Except PyErr α × List SpiEv)
    (fin : List SpiEv) : Except PyErr α × List SpiEv :=
  (body.1, body.2 ++ fin)

namespace SpiAdapter

/-- Source `SpiAdapter.read(device_addr, n_bytes)`:
`try: device_addr.low(); return self.bus.read(n_bytes) finally:
device_addr.high()`.  `busRes` is the outcome of `self.bus.read`. -/
def read (_self : SpiAdapter) (n_bytes : Nat)
    (busRes : Except PyErr (List Nat)) : Except PyErr (List Nat) × List SpiEv :=
  tryFinallyTr (busRes, [.csLow, .busRead n_bytes]) [.csHigh]

/-- Source `SpiAdapter.readinto(device_addr, buf)`:
`try: device_addr.low(); return self.bus.readinto(buf, 0x00) finally:
device_addr.high()`. -/
def readinto (_self : SpiAdapter) (buf : List Nat)
    (busRes : Except PyErr Unit) : Except PyErr Unit × List SpiEv :=
  tryFinallyTr (busRes, [.csLow, .busReadInto buf]) [.csHigh]

/-- Source `SpiAdapter.write(device_addr, buf)`:
`try: device_addr.low(); if self.use_data_mode_pin and self.data_mode_pin:
self.data_mode_pin.value(self.data_packet); return self.bus.write(buf)
finally: device_addr.high()`. -/
def write (self : SpiAdapter) (buf : List Nat)
    (busRes : Except PyErr Unit) : Except PyErr Unit × List SpiEv :=
  let dm := if self.use_data_mode_pin && self.data_mode_pin
    then [SpiEv.dmPin self.data_packet] else []
  tryFinallyTr (busRes, [SpiEv.csLow] ++ dm ++ [SpiEv.busWrite buf]) [.csHigh]

/-- Source `SpiAdapter.write_and_read(device_addr, wr_buf, rd_buf)`:
like `write` but ending in `self.bus.write_readinto(wr_buf, rd_buf)`. -/
def write_and_read (self : SpiAdapter) (wr_buf rd_buf : List Nat)
    (busRes : Except PyErr Unit) : Except PyErr Unit × List SpiEv :=
  let dm := if self.use_data_mode_pin && self.data_mode_pin
    then [SpiEv.dmPin self.data_packet] else []
  tryFinallyTr (busRes, [SpiEv.csLow] ++ dm ++ [SpiEv.busWriteReadInto wr_buf rd_buf])
    [.csHigh]

/-- Source `SpiAdapter.read_register(device_addr, reg_addr, bytes_count)`:
`raise NotImplementedError` — nothing touches the bus or the pins. -/
def read_register (_self : SpiAdapter) (_reg_addr _bytes_count : Nat) :
    Except PyErr (List Nat) × List SpiEv :=
  (.error .notImplementedError, [])

/-- Source `SpiAdapter.write_register(device_addr, reg_addr, value,
bytes_count, byte_order)`: `raise NotImplementedError` — nothing touches
the bus or the pins. -/
def write_register (_self : SpiAdapter) (_reg_addr : Nat) (_value : PyValue)
    (_bytes_count : Nat) (_byte_order : String) :
    Except PyErr Unit × List SpiEv :=
  (.error .notImplementedError, [])

end SpiAdapter

/-- Modelled from the spec: `machine.SPI.write_readinto` — the micropython
firmware transport primitive, not part of this repository's sources.  Per
the spec's full-duplex contract, the two buffers "must be equal length",
failing with `LengthMismatch` otherwise; on equal lengths it succeeds. -/
def SPI.write_readinto_prim (wr_buf rd_buf : List Nat) : Except PyErr Unit :=
  if wr_buf.length ≠ rd_buf.length then .error .lengthMismatch else .ok ()

/-- The chip-select level after a trace: `none` if never driven, otherwise
the last level set (`true` = high). -/
def lastCs (tr : List SpiEv) : Option Bool :=
  tr.foldl (fun acc ev =>
    match ev with
    | .csLow => some false
    | .csHigh => some true
    | _ => acc) none

/-- Chip-select discipline of one transaction: the result of the
transaction is exactly the transport outcome, the chip-select line ends
high, and the trace is chip-select low, then a middle part containing the
transport call and no chip-select event, then chip-select high. -/
def csDiscipline {α : Type} (busEv : SpiEv)
    (out : Except PyErr α × List SpiEv) (busRes : Except PyErr α) : Prop :=
  out.1 = busRes ∧ lastCs out.2 = some true
    ∧ ∃ mid, out.2 = .csLow :: (mid ++ [.csHigh])
      ∧ busEv ∈ mid ∧ SpiEv.csLow ∉ mid ∧ SpiEv.csHigh ∉ mid

/-! ### SpiAdapter theorems -/

/-- C1: every `SpiAdapter` transaction (`write`, `write_and_read`, `read`,
`readinto`) drives the chip-select pin low before the transport call and
high again after it on every exit path — for every transport outcome
`busRes`, the raising one included, the trace ends with chip-select high
and the chip-select line is never left asserted. -/
theorem spi_cs_scoped_discipline (a : SpiAdapter) (n : Nat)
    (buf' wbuf wr rd : List Nat) (rdRes : Except PyErr (List Nat))
    (riRes wRes wrRes : Except PyErr Unit) :
    csDiscipline (.busRead n) (a.read n rdRes) rdRes
    ∧ csDiscipline (.busReadInto buf') (a.readinto buf' riRes) riRes
    ∧ csDiscipline (.busWrite wbuf) (a.write wbuf wRes) wRes
    ∧ csDiscipline (.busWriteReadInto wr rd) (a.write_and_read wr rd wrRes) wrRes := by
  refine ⟨⟨rfl, rfl, [.busRead n], rfl, by simp, by simp, by simp⟩,
          ⟨rfl, rfl, [.busReadInto buf'], rfl, by simp, by simp, by simp⟩,
          ?_, ?_⟩
  · by_cases hdm : a.use_data_mode_pin && a.data_mode_pin
    · refine ⟨rfl, ?_, [.dmPin a.data_packet, .busWrite wbuf], ?_, by simp,
        by simp, by simp⟩ <;>
        simp [SpiAdapter.write, tryFinallyTr, lastCs, hdm]
    · refine ⟨rfl, ?_, [.busWrite wbuf], ?_, by simp, by simp, by simp⟩ <;>
        simp [SpiAdapter.write, tryFinallyTr, lastCs, hdm]
  · by_cases hdm : a.use_data_mode_pin && a.data_mode_pin
    · refine ⟨rfl, ?_, [.dmPin a.data_packet, .busWriteReadInto wr rd], ?_,
        by simp, by simp, by simp⟩ <;>
        simp [SpiAdapter.write_and_read, tryFinallyTr, lastCs, hdm]
    · refine ⟨rfl, ?_, [.busWriteReadInto wr rd], ?_, by simp, by simp,
        by simp⟩ <;>
        simp [SpiAdapter.write_and_read, tryFinallyTr, lastCs, hdm]

/-- C8: `SpiAdapter.read_register` and `SpiAdapter.write_register` fail
with the unimplemented-operation fault (`NotImplementedError`, the spec's
`UnsupportedOperation`) for every argument, with an empty trace — no pin or
bus activity at all. -/
theorem spi_register_access_unsupported (a : SpiAdapter)
    (reg_addr bytes_count : Nat) (value : PyValue) (byte_order : String) :
    a.read_register reg_addr bytes_count = (.error .notImplementedError, [])
    ∧ a.write_register reg_addr value bytes_count byte_order
        = (.error .notImplementedError, []) :=
  ⟨rfl, rfl⟩

/-- C5: `SpiAdapter.write_and_read` with buffers of unequal length fails
with `LengthMismatch`: the adapter itself performs no length check, the
fault comes from the spec-modelled transport primitive
`SPI.write_readinto_prim` and propagates through the adapter (which still
deasserts chip-select on the way out). -/
theorem spi_write_and_read_length_mismatch (a : SpiAdapter)
    (wr rd : List Nat) (h : wr.length ≠ rd.length) :
    (a.write_and_read wr rd (SPI.write_readinto_prim wr rd)).1
      = .error .lengthMismatch := by
  simp [SpiAdapter.write_and_read, tryFinallyTr, SPI.write_readinto_prim, h]

/-- Witness for `spi_write_and_read_length_mismatch`: a one-byte write
buffer against an empty read buffer. -/
theorem spi_write_and_read_length_mismatch_witness :
    ((SpiAdapter.mk false false false).write_and_read [0x55] []
        (SPI.write_readinto_prim [0x55] [])).1 = .error .lengthMismatch :=
  spi_write_and_read_length_mismatch ⟨false, false, false⟩ [0x55] [] (by decide)

/-! ## base_sensor.py — Device.unpack -/

/-- The `class Device` of `base_sensor.py`, restricted to the state its
`unpack` method reads: the `big_byte_order` flag set at construction (the
`adapter`, `address` and `msb_first` fields never enter `unpack`). -/
structure Device where
  big_byte_order : Bool
  deriving DecidableEq, Repr

namespace Device

/-- Source `Device.is_big_byteorder(self)`: `return self.big_byte_order`. -/
def is_big_byteorder (d : Device) : Bool := d.big_byte_order

/-- Source `Device._get_byteorder_as_str(self)`: returns
`('big', '>')` when `is_big_byteorder()` and `('little', '<')` otherwise
(both components are Python strings). -/
def get_byteorder_as_str (d : Device) : String × String :=
  if d.is_big_byteorder then ("big", ">") else ("little", "<")

/-- Source `Device.unpack(self, fmt_char, source, redefine_byte_order)`:
raises `ValueError` on an empty `fmt_char`; takes `bo` from
`_get_byteorder_as_str()[1]`, overridden by `redefine_byte_order[0]` (a
one-character Python string; `IndexError` on an empty override) when the
override is not `None`; the call `struct.unpack(bo + fmt_char, source)` is
modelled by returning its argument pair. -/
def unpack (d : Device) (fmt_char : String) (source : List Nat)
    (redefine_byte_order : Option String) :
    Except PyErr (String × List Nat) :=
  if fmt_char = "" then
    .error (.valueError "Invalid length fmt_char parameter")
  else
    let bo := (d.get_byteorder_as_str).2
    match redefine_byte_order with
    | none => .ok (bo ++ fmt_char, source)
    | some s =>
      match s.data with
      | [] => .error .indexError
      | c :: _ => .ok (String.mk [c] ++ fmt_char, source)

end Device

/-! ### Device theorems -/

/-- C10: `Device.unpack` uses only the first character of a non-`None`
`redefine_byte_order` as the struct byte-order prefix, so the tokens
`"big"` and `"little"` yield the prefixes `"b"` and `"l"` — not the `">"`
and `"<"` produced from the device default — hence the override must
already be a struct byte-order character. -/
theorem device_unpack_prefix (d : Device) (fmt_char : String)
    (source : List Nat) (h : fmt_char ≠ "") :
    Device.unpack d fmt_char source (some "big")
        = .ok ("b" ++ fmt_char, source)
    ∧ Device.unpack d fmt_char source (some "little")
        = .ok ("l" ++ fmt_char, source)
    ∧ Device.unpack ⟨true⟩ fmt_char source none
        = .ok (">" ++ fmt_char, source)
    ∧ Device.unpack ⟨false⟩ fmt_char source none
        = .ok ("<" ++ fmt_char, source)
    ∧ ("b" : String) ≠ ">" ∧ ("l" : String) ≠ "<" := by
  refine ⟨?_, ?_, ?_, ?_, by decide, by decide⟩ <;>
    · unfold Device.unpack
      rw [if_neg h]
      try rfl

/-- Witness for `device_unpack_prefix` with format character `"h"` and a
two-byte source. -/
theorem device_unpack_prefix_witness :
    Device.unpack ⟨true⟩ "h" [1, 2] (some "big") = .ok ("b" ++ "h", [1, 2])
    ∧ Device.unpack ⟨true⟩ "h" [1, 2] (some "little") = .ok ("l" ++ "h", [1, 2])
    ∧ Device.unpack ⟨true⟩ "h" [1, 2] none = .ok (">" ++ "h", [1, 2])
    ∧ Device.unpack ⟨false⟩ "h" [1, 2] none = .ok ("<" ++ "h", [1, 2])
    ∧ ("b" : String) ≠ ">" ∧ ("l" : String) ≠ "<" :=
  device_unpack_prefix ⟨true⟩ "h" [1, 2] (by decide)
